import Mathlib

/-!
Verification of the schedule-resolution engine and reconciliation state
machine of the `docker-slack-scheduled-status` repository.

The development shallowly embeds the relevant JavaScript/TypeScript code:

* `src/core/schedule.ts` — weekday alias resolution
  (`determineValidWeekdaysForSchedule`), window expansion
  (`reloadScheduleWithValidation`'s per-entry loop) and active-window
  resolution (`getExpectedStatusFromSchedule`);
* `src/core/runtime.ts` and the assertive-variant reconciliation task in
  `src/core/slack.ts` — the per-cycle reconciliation state machine;
* `src/core/taskScheduler.ts` — `getMillisecondsUntilNextTask`.

Modelling conventions:

* Instants are integers (epoch milliseconds in the configured local
  timezone, assumed to be a whole number of minutes away from UTC, so that
  `Date.prototype.getSeconds`/`getMilliseconds` agree with arithmetic
  modulo 60000 on the integer).  Calendar days are integers (local day
  number); `new Date(Y, M, D + k, h, m, s)` normalises arithmetically, so
  an instant built from components is `(day * 86400 + h * 3600 + m * 60 +
  s) * 1000`.
* The clock strings parsed from the TOML (`"HH:MM:SS".split(':')`) are
  digit strings.  In the duration branch of the expander the source
  computes `startHour + finalHour` where both operands are *strings*, so
  JavaScript performs string concatenation; the numeric value of the
  concatenation of two digit strings is `a * 10 ^ (number of digits of b)
  + b`.  Duration clock fields are therefore modelled as a numeric value
  paired with the digit-width of the source string (`ClockField`), and
  the concatenation is `jsConcatNum`.
* `Math.random()` results are rationals `r` with `0 ≤ r < 1`;
  `Math.round x = ⌊x + 1/2⌋` (JavaScript rounds half toward +∞).
* JavaScript `undefined` for a possibly-absent string is `Option.none`;
  the truthiness of `lastSetStatusById : string | null` is captured by
  `jsTruthyOpt`.
* Logging is effect-free and is not modelled.  The remote Slack calls of
  one reconciliation cycle are modelled by `Except`-valued inputs (the
  fetch result and the publish result) plus a trace of which remote calls
  the cycle performed.
* The locale-dependent list `SCHEDULE_EVERYDAY` (seven short weekday
  names computed through `toLocaleString`) is passed as an explicit
  `everyday` parameter, exactly as the specification's contracts
  parameterise the resolver by `currentWeekdayName`.
-/

namespace SlackStatus

/-! ### Data model: expanded windows (`ScheduleItem` in `schedule.ts`) -/

/-- One expanded occurrence of a schedule entry, as pushed onto
`processedSchedule` by `reloadScheduleWithValidation`.  Times are epoch
milliseconds.  `assertive` is the flag of the assertive-variant entry
schema (read by the assertive reconciliation task as
`currentExpectedStatus.assertive`). -/
structure ScheduleItem where
  id : String
  startTime : Int
  endTime : Int
  icon : String
  message : List String
  validWeekdays : List String
  doNotDisturb : Bool
  assertive : Bool
  deriving DecidableEq, Repr

instance : Inhabited ScheduleItem :=
  ⟨{ id := "", startTime := 0, endTime := 0, icon := "", message := [],
     validWeekdays := [], doNotDisturb := false, assertive := false }⟩

/-- The record returned by `getExpectedStatusFromSchedule`: either the
null-time sentinel or a matched window with `message` collapsed to one
selected string.  `message = none` models JavaScript `undefined` (an
out-of-range index into the message array); the sentinel's message is the
empty string.  `startTime`/`endTime` are `none` on the sentinel, which has
no such fields (`undefined` in JavaScript). -/
structure SelectedScheduleItem where
  id : String
  icon : String
  message : Option String
  validWeekdays : List String
  doNotDisturb : Bool
  assertive : Bool
  startTime : Option Int
  endTime : Option Int
  deriving DecidableEq, Repr

/-- The null-time status returned when no schedule item matches. -/
def emptySelectedStatus : SelectedScheduleItem :=
  { id := "", icon := "", message := some "", validWeekdays := [],
    doNotDisturb := false, assertive := false,
    startTime := none, endTime := none }

/-! ### JavaScript helpers -/

/-- `Math.round` on a rational: round half toward positive infinity. -/
def jsRound (q : ℚ) : Int := Int.floor (q + 1 / 2)

/-- JavaScript array indexing `l[i]`: `undefined` (`none`) when out of
range (including all negative indices). -/
def jsArrayGet (l : List String) (i : Int) : Option String :=
  if i < 0 then none else l.get? i.toNat

/-- Truthiness of the `lastSetStatusById : string | null` module variable:
`null` and the empty string are falsy. -/
def jsTruthyOpt : Option String → Bool
  | none => false
  | some s => !(s == "")

/-- `String.prototype.toLowerCase` on the ASCII weekday strings the
schedule handles: lower the ASCII uppercase letters, character by
character. -/
def jsLowerChar (c : Char) : Char :=
  if 65 ≤ c.toNat ∧ c.toNat ≤ 90 then Char.ofNat (c.toNat + 32) else c

/-- `rawValue.toLowerCase()` as used on the entries of a `days` array. -/
def jsToLower (s : String) : String := String.mk (s.data.map jsLowerChar)

/-! ### Window resolution (`getExpectedStatusFromSchedule`) -/

/-- Duration of a window in milliseconds, `item.endTime - item.startTime`
(JavaScript `Date` subtraction). -/
def durationMs (item : ScheduleItem) : Int :=
  item.endTime - item.startTime

/-- The filter of `getExpectedStatusFromSchedule`: windows with
`item.startTime <= currentTime && item.endTime > currentTime` that contain
the *current* weekday name. -/
def matchingScheduleItems (schedule : List ScheduleItem) (now : Int)
    (currentWeekday : String) : List ScheduleItem :=
  schedule.filter fun item =>
    decide (item.startTime ≤ now) && decide (item.endTime > now) &&
      item.validWeekdays.contains currentWeekday

/-- The comparator `(a, b) => (a.endTime - a.startTime) - (b.endTime -
b.startTime)` of the overlap tie-break, as the total preorder it induces.
`Array.prototype.sort` is stable (ECMAScript 2019), and the stable sort of
a list by a total preorder is unique, so Mathlib's stable `insertionSort`
computes the same list. -/
def byDurationLE (a b : ScheduleItem) : Prop :=
  durationMs a ≤ durationMs b

instance : DecidableRel byDurationLE := fun a b =>
  inferInstanceAs (Decidable (durationMs a ≤ durationMs b))

/-- `matchingScheduleItems.sort(comparator)` from the resolver. -/
def sortMatchesByDuration (l : List ScheduleItem) : List ScheduleItem :=
  List.insertionSort byDurationLE l

/-- Collapse the winning window to a `SelectedScheduleItem`, selecting
`message[Math.round((message.length - 1) * Math.random())]`. -/
def collapseItem (item : ScheduleItem) (rand : ℚ) : SelectedScheduleItem :=
  { id := item.id, icon := item.icon,
    message :=
      jsArrayGet item.message (jsRound (((item.message.length : ℚ) - 1) * rand)),
    validWeekdays := item.validWeekdays,
    doNotDisturb := item.doNotDisturb,
    assertive := item.assertive,
    startTime := some item.startTime, endTime := some item.endTime }

/-- `getExpectedStatusFromSchedule(schedule)`.  `now` and `currentWeekday`
stand for `new Date()` and its locale short weekday name; `rand` is the
`Math.random()` draw used for message selection. -/
def getExpectedStatusFromSchedule (schedule : List ScheduleItem) (now : Int)
    (currentWeekday : String) (rand : ℚ) : SelectedScheduleItem :=
  match matchingScheduleItems schedule now currentWeekday with
  | [] => emptySelectedStatus
  | m :: ms => collapseItem ((sortMatchesByDuration (m :: ms)).headI) rand

/-- Specification-side selector: the *first* element of the list attaining
the minimal `durationMs`, i.e. minimal duration with ties broken by input
order.  (`default` on the empty list, which is never used.) -/
def firstMinByDuration : List ScheduleItem → ScheduleItem
  | [] => default
  | [x] => x
  | x :: y :: ys =>
    if durationMs (firstMinByDuration (y :: ys)) < durationMs x then
      firstMinByDuration (y :: ys)
    else x

/-! ### Weekday alias resolution (`determineValidWeekdaysForSchedule`) -/

/-- `SCHEDULE_WEEKDAYS`: elements of the everyday list at truthy indices
below 6, i.e. indices 1–5 (`.filter((_i, index) => index && index < 6)`). -/
def SCHEDULE_WEEKDAYS (everyday : List String) : List String :=
  (everyday.enum.filter fun p => decide (p.1 ≠ 0) && decide (p.1 < 6)).map Prod.snd

/-- `SCHEDULE_4D`: elements of the everyday list at truthy indices below 5,
i.e. indices 1–4 (`.filter((_i, index) => index && index < 5)`). -/
def SCHEDULE_4D (everyday : List String) : List String :=
  (everyday.enum.filter fun p => decide (p.1 ≠ 0) && decide (p.1 < 5)).map Prod.snd

/-- The raw `days` value of a schedule entry: a string (alias) or an array. -/
inductive WeekdaysValue where
  | alias (s : String)
  | dayList (l : List String)
  deriving DecidableEq, Repr

/-- `determineValidWeekdaysForSchedule(weekdayValue)`.  A string that is
none of the three aliases falls through the `Array.isArray` check and
yields `[]`; an array is stringified, lower-cased and filtered against the
everyday list. -/
def determineValidWeekdaysForSchedule (everyday : List String) :
    WeekdaysValue → List String
  | .alias s =>
    if s = "everyday" then everyday
    else if s = "weekdays" then SCHEDULE_WEEKDAYS everyday
    else if s = "4D" then SCHEDULE_4D everyday
    else []
  | .dayList l => (l.map jsToLower).filter fun v => everyday.contains v

/-! ### Window expansion (`reloadScheduleWithValidation`, per-entry loop) -/

/-- One field of a parsed duration clock string: its numeric value and the
number of digits of the source string (needed because the source
concatenates it, as a string, to the matching start field). -/
structure ClockField where
  val : Nat
  len : Nat
  deriving DecidableEq, Repr

/-- A parsed `HH:MM:SS` clock where only the numeric values matter
(start and end clocks: their strings are only ever coerced to numbers). -/
structure Clock where
  hh : Nat
  mm : Nat
  ss : Nat
  deriving DecidableEq, Repr

/-- A parsed duration clock, each field with its digit-width. -/
structure DurationClock where
  hh : ClockField
  mm : ClockField
  ss : ClockField
  deriving DecidableEq, Repr

/-- `itemRef.duration || itemRef.end`: which of the two timing styles the
entry uses (`duration` wins when both are present). -/
inductive EntryTiming where
  | byDuration (d : DurationClock)
  | byEnd (c : Clock)
  deriving DecidableEq, Repr

/-- A parsed TOML schedule entry as consumed by the expansion loop.  An
absent or empty `icon` is modelled by the empty string (both are falsy in
`!itemRef.icon`).  `message` is a bare string or an array, as in the TOML. -/
structure RawEntry where
  id : String
  icon : String
  days : WeekdaysValue
  startClock : Clock
  timing : EntryTiming
  message : Sum String (List String)
  doNotDisturb : Bool
  assertive : Bool
  deriving DecidableEq, Repr

/-- Numeric value of the JavaScript string concatenation `a + f` of two
digit strings,`a` having numeric value `a` and `f` having `f.len` digits:
`Number(strA ++ strF) = a * 10 ^ f.len + f.val`. -/
def jsConcatNum (a : Nat) (f : ClockField) : Nat :=
  a * 10 ^ f.len + f.val

/-- Seconds after local midnight denoted by a clock (components may exceed
their usual ranges; `new Date` normalises them arithmetically). -/
def clockSecondOfDay (c : Clock) : Nat :=
  c.hh * 3600 + c.mm * 60 + c.ss

/-- Total seconds of a duration clock read arithmetically
(hours, minutes and seconds together). -/
def durationTotalSeconds (d : DurationClock) : Nat :=
  d.hh.val * 3600 + d.mm.val * 60 + d.ss.val

/-- The window pushed for day offset `off` of an accepted entry:
`startTime = new Date(Y, M, D - off, startHour, startMinute, startSecond)`
and `endTime` either from the duration (string-concatenated components) or
from the end clock on the same anchored day. -/
def mkOccurrence (today : Int) (off : Nat) (e : RawEntry)
    (vw : List String) : ScheduleItem :=
  let anchor : Int := today - (off : Int)
  { id := e.id,
    startTime := (anchor * 86400 + (clockSecondOfDay e.startClock : Int)) * 1000,
    endTime :=
      match e.timing with
      | .byDuration d =>
        (anchor * 86400 +
          ((jsConcatNum e.startClock.hh d.hh * 3600 +
            jsConcatNum e.startClock.mm d.mm * 60 +
            jsConcatNum e.startClock.ss d.ss : Nat) : Int)) * 1000
      | .byEnd c => (anchor * 86400 + (clockSecondOfDay c : Int)) * 1000,
    icon := e.icon,
    message := match e.message with | .inl s => [s] | .inr l => l,
    validWeekdays := vw,
    doNotDisturb := e.doNotDisturb,
    assertive := e.assertive }

/-- The windows contributed by one entry of the parsed TOML: the body of
the `for (const id of Object.keys(...))` loop of
`reloadScheduleWithValidation`.  `span` is `maximumDaySpan`
(`SCHEDULER_MAX_DAYSPAN`, default 2); the `while (dayOffset--)` loop runs
`dayOffset = span-1, …, 0`.  An entry is skipped when its icon is falsy,
when no valid weekday can be determined, or when it has a duration whose
*hour field* exceeds `(span - 1) * 24`. -/
def expandEntry (everyday : List String) (span : Nat) (today : Int)
    (e : RawEntry) : List ScheduleItem :=
  if e.icon = "" then []
  else
    let vw := determineValidWeekdaysForSchedule everyday e.days
    if vw = [] then []
    else
      let windows := (List.range span).reverse.map fun off =>
        mkOccurrence today off e vw
      match e.timing with
      | .byDuration d =>
        if ((d.hh.val : Int) > ((span : Int) - 1) * 24) then [] else windows
      | .byEnd _ => windows

/-- The full expanded schedule (`processedSchedule`) for a list of parsed
entries, in TOML key order. -/
def reloadScheduleWindows (everyday : List String) (span : Nat)
    (today : Int) (entries : List RawEntry) : List ScheduleItem :=
  entries.flatMap (expandEntry everyday span today)

/-! ### Drift-free interval computation (`getMillisecondsUntilNextTask`) -/

/-- Seconds component of an instant (epoch milliseconds, local timezone a
whole number of minutes from UTC): `Date.prototype.getSeconds`. -/
def secondsComponent (t : Nat) : Nat := t / 1000 % 60

/-- `getMillisecondsUntilNextTask(intervalInSeconds)` from
`taskScheduler.ts`: truncate `now` to the minute (`new Date(Y, M, D, h,
m)`), set its seconds to `Math.ceil((seconds + ms/1000) / interval) *
interval` (allowed to roll into the next minute) and subtract `now`.
`(r + 1000 * i - 1) / (1000 * i)` is the exact ceiling of the rational
`(s + ms / 1000) / i` over the intra-minute milliseconds `r`. -/
def getMillisecondsUntilNextTask (intervalInSeconds : Nat) (nowMs : Nat) : Int :=
  let nextClosestIntervalBase := nowMs - nowMs % 60000
  let r := nowMs % 60000
  let k := (r + 1000 * intervalInSeconds - 1) / (1000 * intervalInSeconds)
  ((nextClosestIntervalBase + k * intervalInSeconds * 1000 : Nat) : Int) - (nowMs : Int)

/-! ### Reconciliation cycles (`runtime.ts` task and the assertive task) -/

/-- The remote Slack status fetched by `loadCurrentStatusFromSlack`. -/
structure RemoteStatus where
  message : String
  icon : String
  doNotDisturb : Bool
  deriving DecidableEq, Repr

/-- The remote calls a cycle can perform.  `publish` stands for the whole
of `publishNewStatusToSlack` (profile set plus DND adjustment). -/
inductive RemoteCall where
  | fetch
  | publish
  deriving DecidableEq, Repr

/-- Result of one non-assertive reconciliation cycle: the new
`lastSetStatusById`, the remote calls performed in order, and whether the
cycle ran to completion (`ok = false` means a remote call threw and the
exception propagated to the task scheduler). -/
structure RuntimeCycleResult where
  lastSetStatusById : Option String
  calls : List RemoteCall
  ok : Bool
  deriving DecidableEq, Repr

/-- One iteration of the `runtime.ts` reconciliation task.  `fetchResult`
and `publishResult` model the outcomes of `loadCurrentStatusFromSlack` and
`publishNewStatusToSlack`; a `.error` makes the corresponding `await`
throw. -/
def runtimeCycle (schedule : List ScheduleItem) (scheduleDidChange : Bool)
    (knownIcons : List String) (now : Int) (currentWeekday : String)
    (rand : ℚ) (lastSetStatusById : Option String)
    (fetchResult : Except Unit RemoteStatus)
    (publishResult : Except Unit Unit) : RuntimeCycleResult :=
  -- if new schedule is loading during this task run - reset the lastSetId
  let st := if scheduleDidChange then none else lastSetStatusById
  let currentExpectedStatus := getExpectedStatusFromSchedule schedule now currentWeekday rand
  -- if the expected status exactly matches what we last set, do nothing
  if jsTruthyOpt st && (some currentExpectedStatus.id == st) then
    { lastSetStatusById := st, calls := [], ok := true }
  -- check for empty status
  else if st == some "" && currentExpectedStatus.message == some "" then
    { lastSetStatusById := st, calls := [], ok := true }
  else
    match fetchResult with
    | .error _ => { lastSetStatusById := st, calls := [.fetch], ok := false }
    | .ok currentSlackStatus =>
      -- unrecognized icon: adopt the expected id without publishing
      if !(currentSlackStatus.icon == "") && !(knownIcons.contains currentSlackStatus.icon) then
        { lastSetStatusById := some currentExpectedStatus.id, calls := [.fetch], ok := true }
      -- remote and local both empty: avoid the redundant request
      else if currentExpectedStatus.id == "" && currentSlackStatus.message == "" then
        { lastSetStatusById := some currentExpectedStatus.id, calls := [.fetch], ok := true }
      else
        match publishResult with
        | .error _ =>
          { lastSetStatusById := st, calls := [.fetch, .publish], ok := false }
        | .ok _ =>
          { lastSetStatusById := some currentExpectedStatus.id,
            calls := [.fetch, .publish], ok := true }

/-- Result of one assertive-variant cycle: additionally carries the
`assertiveIntervalCounter` module variable. -/
structure AssertiveCycleResult where
  lastSetStatusById : Option String
  assertiveIntervalCounter : Nat
  calls : List RemoteCall
  ok : Bool
  deriving DecidableEq, Repr

/-- One iteration of the assertive reconciliation task (the variant whose
`reloadScheduleWithValidation` also returns `settings`).
`assertiveInterval` is `settings.assertiveInterval` with `0` for
absent/disabled (JavaScript falsy).  The counter is updated *before* any
remote call, exactly as in the source. -/
def assertiveCycle (schedule : List ScheduleItem) (scheduleDidChange : Bool)
    (knownIcons : List String) (assertiveInterval : Nat) (now : Int)
    (currentWeekday : String) (rand : ℚ) (lastSetStatusById : Option String)
    (counter : Nat) (fetchResult : Except Unit RemoteStatus)
    (publishResult : Except Unit Unit) : AssertiveCycleResult :=
  let st := if scheduleDidChange then none else lastSetStatusById
  let currentExpectedStatus := getExpectedStatusFromSchedule schedule now currentWeekday rand
  let fire := decide (assertiveInterval ≠ 0) && currentExpectedStatus.assertive
  let statusShouldReassert := fire && decide (counter = assertiveInterval)
  let c := if fire then (if counter = assertiveInterval then 0 else counter + 1) else counter
  if !statusShouldReassert && (jsTruthyOpt st && (some currentExpectedStatus.id == st)) then
    { lastSetStatusById := st, assertiveIntervalCounter := c, calls := [], ok := true }
  else if st == some "" && currentExpectedStatus.message == some "" then
    { lastSetStatusById := st, assertiveIntervalCounter := c, calls := [], ok := true }
  else
    match fetchResult with
    | .error _ =>
      { lastSetStatusById := st, assertiveIntervalCounter := c,
        calls := [.fetch], ok := false }
    | .ok currentSlackStatus =>
      let isUsingUnrecognizedIcon :=
        !(currentSlackStatus.icon == "") && !(knownIcons.contains currentSlackStatus.icon)
      -- forced re-assertion with a compliant remote icon: no need to override
      if statusShouldReassert && !isUsingUnrecognizedIcon then
        { lastSetStatusById := st, assertiveIntervalCounter := c,
          calls := [.fetch], ok := true }
      else if !statusShouldReassert && isUsingUnrecognizedIcon then
        { lastSetStatusById := some currentExpectedStatus.id,
          assertiveIntervalCounter := c, calls := [.fetch], ok := true }
      else if currentExpectedStatus.id == "" && currentSlackStatus.message == "" then
        { lastSetStatusById := some currentExpectedStatus.id,
          assertiveIntervalCounter := c, calls := [.fetch], ok := true }
      else
        match publishResult with
        | .error _ =>
          { lastSetStatusById := st, assertiveIntervalCounter := c,
            calls := [.fetch, .publish], ok := false }
        | .ok _ =>
          { lastSetStatusById := some currentExpectedStatus.id,
            assertiveIntervalCounter := c, calls := [.fetch, .publish], ok := true }

/-! ### Concrete fixtures used by counterexamples and witnesses -/

/-- A concrete everyday list: the locale short names computed in a
timezone where index 0 falls on a Sunday (e.g. `en-US`, UTC-5). -/
def demoEveryday : List String :=
  ["sun", "mon", "tue", "wed", "thu", "fri", "sat"]

/-- An accepted entry whose end clock (09:00:00) is earlier in the day
than its start clock (10:00:00). -/
def badEndEntry : RawEntry :=
  { id := "morning", icon := ":coffee:", days := .dayList ["Mon"],
    startClock := { hh := 10, mm := 0, ss := 0 },
    timing := .byEnd { hh := 9, mm := 0, ss := 0 },
    message := .inl "oops", doNotDisturb := false, assertive := false }

/-- An accepted Monday-only entry starting at 23:00:00 with duration
"02:00:00" (each duration field two digits wide), spanning past
midnight into Tuesday. -/
def lateNightEntry : RawEntry :=
  { id := "late", icon := ":zzz:", days := .dayList ["Mon"],
    startClock := { hh := 23, mm := 0, ss := 0 },
    timing := .byDuration
      { hh := { val := 2, len := 2 }, mm := { val := 0, len := 2 },
        ss := { val := 0, len := 2 } },
    message := .inr ["away"], doNotDisturb := false, assertive := false }

/-- An accepted entry with duration "24:30:00": 24.5 hours in total,
more than `(2 - 1) * 24` hours, but with hour field exactly 24. -/
def longDurationEntry : RawEntry :=
  { id := "long", icon := ":calendar:", days := .dayList ["Mon"],
    startClock := { hh := 8, mm := 0, ss := 0 },
    timing := .byDuration
      { hh := { val := 24, len := 2 }, mm := { val := 30, len := 2 },
        ss := { val := 0, len := 2 } },
    message := .inl "busy", doNotDisturb := false, assertive := false }

/-- A window matching `demoNow` on weekday "mon", marked assertive. -/
def assertiveWindow : ScheduleItem :=
  { id := "focus", startTime := 0, endTime := 3600000, icon := ":focus:",
    message := ["heads down"], validWeekdays := ["mon"],
    doNotDisturb := false, assertive := true }

/-- A matching window whose declared message list is empty
(`message = []` in the TOML passes through `Array.isArray` unwrapped). -/
def emptyMessagesWindow : ScheduleItem :=
  { id := "silent", startTime := 0, endTime := 3600000, icon := ":mute:",
    message := [], validWeekdays := ["mon"],
    doNotDisturb := false, assertive := false }

/-- Two overlapping windows for the tie-break witnesses: a two-hour
umbrella declared first and a 30-minute nested slot declared second. -/
def umbrellaWindow : ScheduleItem :=
  { id := "umbrella", startTime := 0, endTime := 7200000, icon := ":u:",
    message := ["broad"], validWeekdays := ["mon"],
    doNotDisturb := false, assertive := false }

/-- The nested 30-minute slot, declared after `umbrellaWindow`. -/
def nestedWindow : ScheduleItem :=
  { id := "nested", startTime := 1800000, endTime := 3600000, icon := ":n:",
    message := ["specific"], validWeekdays := ["mon"],
    doNotDisturb := false, assertive := false }

/-- A remote status whose icon is recognized by the demo schedules. -/
def compliantRemote : RemoteStatus :=
  { message := "heads down", icon := ":focus:", doNotDisturb := false }

/-! ### Helper lemmas: the stable sort's head is the first duration-minimal
window -/

theorem headI_orderedInsert (x h : ScheduleItem) (t : List ScheduleItem) :
    (List.orderedInsert byDurationLE x (h :: t)).headI =
      if durationMs x ≤ durationMs h then x else h := by
  by_cases hc : durationMs x ≤ durationMs h
  · simp [List.orderedInsert, byDurationLE, hc]
  · simp [List.orderedInsert, byDurationLE, hc]

theorem headI_sortMatchesByDuration :
    ∀ (xs : List ScheduleItem) (x : ScheduleItem),
      (sortMatchesByDuration (x :: xs)).headI = firstMinByDuration (x :: xs) := by
  intro xs
  induction xs with
  | nil => intro x; rfl
  | cons y ys ih =>
    intro x
    have hsort : sortMatchesByDuration (x :: y :: ys) =
        List.orderedInsert byDurationLE x (sortMatchesByDuration (y :: ys)) := rfl
    obtain ⟨h, t, hht⟩ : ∃ h t, sortMatchesByDuration (y :: ys) = h :: t := by
      cases hs : sortMatchesByDuration (y :: ys) with
      | nil =>
        exfalso
        have hlen := List.length_insertionSort byDurationLE (y :: ys)
        rw [show List.insertionSort byDurationLE (y :: ys) =
              sortMatchesByDuration (y :: ys) from rfl, hs] at hlen
        simp at hlen
      | cons h t => exact ⟨h, t, rfl⟩
    have hh : h = firstMinByDuration (y :: ys) := by
      have hhead := ih y
      rw [hht] at hhead
      simpa using hhead
    rw [hsort, hht, headI_orderedInsert, hh]
    simp only [firstMinByDuration]
    split_ifs with h1 h2 h2
    · exact absurd h2 (not_lt.mpr h1)
    · rfl
    · rfl
    · exfalso; omega

theorem firstMinByDuration_mem :
    ∀ (xs : List ScheduleItem) (x : ScheduleItem),
      firstMinByDuration (x :: xs) ∈ x :: xs := by
  intro xs
  induction xs with
  | nil => intro x; simp [firstMinByDuration]
  | cons y ys ih =>
    intro x
    simp only [firstMinByDuration]
    split_ifs
    · exact List.mem_cons_of_mem x (ih y)
    · exact List.mem_cons_self x _

theorem firstMinByDuration_min :
    ∀ (xs : List ScheduleItem) (x : ScheduleItem),
      ∀ w ∈ x :: xs, durationMs (firstMinByDuration (x :: xs)) ≤ durationMs w := by
  intro xs
  induction xs with
  | nil =>
    intro x w hw
    rw [List.mem_singleton] at hw
    subst hw
    simp [firstMinByDuration]
  | cons y ys ih =>
    intro x w hw
    simp only [firstMinByDuration]
    rcases List.mem_cons.mp hw with hwx | hwtail
    · subst hwx
      split_ifs with h1
      · exact le_of_lt h1
      · exact le_refl _
    · have hmin := ih y w hwtail
      split_ifs with h1
      · exact hmin
      · exact le_trans (le_of_not_lt h1) hmin

theorem find_firstMinByDuration :
    ∀ (xs : List ScheduleItem) (x : ScheduleItem),
      (x :: xs).find?
          (fun w => decide (durationMs w ≤ durationMs (firstMinByDuration (x :: xs)))) =
        some (firstMinByDuration (x :: xs)) := by
  intro xs
  induction xs with
  | nil =>
    intro x
    simp [firstMinByDuration]
  | cons y ys ih =>
    intro x
    simp only [firstMinByDuration]
    split_ifs with h1
    · rw [List.find?_cons_of_neg, ih y]
      simp only [decide_eq_true_eq]
      omega
    · rw [List.find?_cons_of_pos]
      simp

/-! ### Claim C1 -/

/-- C1: whenever at least one expanded window satisfies `start <= now <
end` and contains the current weekday, `getExpectedStatusFromSchedule`
returns the matching window of minimal `(end - start)` duration, with
ties broken by input order: the winner is a matching window, its duration
is minimal among the matches, it is the *first* matching window whose
duration reaches that minimum, and the returned status is exactly that
window collapsed to a selected message. -/
theorem C1_shortest_window_wins (schedule : List ScheduleItem) (now : Int)
    (currentWeekday : String) (rand : ℚ)
    (h : matchingScheduleItems schedule now currentWeekday ≠ []) :
    firstMinByDuration (matchingScheduleItems schedule now currentWeekday) ∈
        matchingScheduleItems schedule now currentWeekday ∧
      (∀ w ∈ matchingScheduleItems schedule now currentWeekday,
        durationMs (firstMinByDuration (matchingScheduleItems schedule now currentWeekday)) ≤
          durationMs w) ∧
      (matchingScheduleItems schedule now currentWeekday).find?
          (fun w => decide (durationMs w ≤
            durationMs (firstMinByDuration (matchingScheduleItems schedule now currentWeekday)))) =
        some (firstMinByDuration (matchingScheduleItems schedule now currentWeekday)) ∧
      getExpectedStatusFromSchedule schedule now currentWeekday rand =
        collapseItem (firstMinByDuration (matchingScheduleItems schedule now currentWeekday))
          rand := by
  cases hM : matchingScheduleItems schedule now currentWeekday with
  | nil => exact absurd hM h
  | cons m ms =>
    refine ⟨firstMinByDuration_mem ms m, firstMinByDuration_min ms m,
      find_firstMinByDuration ms m, ?_⟩
    simp only [getExpectedStatusFromSchedule, hM, headI_sortMatchesByDuration]

/-- Witness for C1 at a concrete overlap: a two-hour umbrella window
declared first and a nested 30-minute window declared second, both active;
the nested window wins. -/
theorem C1_shortest_window_wins_witness :
    matchingScheduleItems [umbrellaWindow, nestedWindow] 1900000 "mon" ≠ [] ∧
      (firstMinByDuration (matchingScheduleItems [umbrellaWindow, nestedWindow] 1900000 "mon") ∈
          matchingScheduleItems [umbrellaWindow, nestedWindow] 1900000 "mon" ∧
        (∀ w ∈ matchingScheduleItems [umbrellaWindow, nestedWindow] 1900000 "mon",
          durationMs (firstMinByDuration
            (matchingScheduleItems [umbrellaWindow, nestedWindow] 1900000 "mon")) ≤
            durationMs w) ∧
        (matchingScheduleItems [umbrellaWindow, nestedWindow] 1900000 "mon").find?
            (fun w => decide (durationMs w ≤
              durationMs (firstMinByDuration
                (matchingScheduleItems [umbrellaWindow, nestedWindow] 1900000 "mon")))) =
          some (firstMinByDuration
            (matchingScheduleItems [umbrellaWindow, nestedWindow] 1900000 "mon")) ∧
        getExpectedStatusFromSchedule [umbrellaWindow, nestedWindow] 1900000 "mon" 0 =
          collapseItem (firstMinByDuration
            (matchingScheduleItems [umbrellaWindow, nestedWindow] 1900000 "mon")) 0) :=
  ⟨by decide, C1_shortest_window_wins [umbrellaWindow, nestedWindow] 1900000 "mon" 0 (by decide)⟩

/-! ### Claim C9 -/

/-- C9: two invocations of `getExpectedStatusFromSchedule` with the same
schedule, instant and weekday agree on `id` and `icon` whatever the two
random draws are; and whenever a window is matched (and, per the data
model, its declared message list is non-empty), the returned message is an
element of the winning window's declared messages, for every random draw
in `Math.random`'s range `[0, 1)`. -/
theorem C9_resolution_idempotent (schedule : List ScheduleItem) (now : Int)
    (currentWeekday : String) (r1 r2 : ℚ) (hr0 : 0 ≤ r1) (hr1 : r1 < 1) :
    ((getExpectedStatusFromSchedule schedule now currentWeekday r1).id =
        (getExpectedStatusFromSchedule schedule now currentWeekday r2).id ∧
      (getExpectedStatusFromSchedule schedule now currentWeekday r1).icon =
        (getExpectedStatusFromSchedule schedule now currentWeekday r2).icon) ∧
    (matchingScheduleItems schedule now currentWeekday ≠ [] →
      (firstMinByDuration (matchingScheduleItems schedule now currentWeekday)).message ≠ [] →
      ∃ msg,
        (getExpectedStatusFromSchedule schedule now currentWeekday r1).message = some msg ∧
        msg ∈ (firstMinByDuration (matchingScheduleItems schedule now currentWeekday)).message) := by
  constructor
  · cases hM : matchingScheduleItems schedule now currentWeekday with
    | nil => simp [getExpectedStatusFromSchedule, hM]
    | cons m ms =>
      simp [getExpectedStatusFromSchedule, hM, collapseItem]
  · intro hne hmsg
    cases hM : matchingScheduleItems schedule now currentWeekday with
    | nil => exact absurd hM hne
    | cons m ms =>
      rw [hM] at hmsg
      simp only [getExpectedStatusFromSchedule, hM, headI_sortMatchesByDuration, collapseItem]
      set W := firstMinByDuration (m :: ms) with hW
      set n := W.message.length with hn
      have hn1 : 1 ≤ n := by
        rw [hn]
        exact List.length_pos.mpr hmsg
      have hcast : (1 : ℚ) ≤ (n : ℚ) := by exact_mod_cast hn1
      set i := jsRound (((n : ℚ) - 1) * r1) with hi
      have hq0 : (0 : ℚ) ≤ ((n : ℚ) - 1) * r1 :=
        mul_nonneg (by linarith) hr0
      have hqlt : ((n : ℚ) - 1) * r1 + 1 / 2 < (n : ℚ) := by
        have hle : ((n : ℚ) - 1) * r1 ≤ ((n : ℚ) - 1) * 1 :=
          mul_le_mul_of_nonneg_left (le_of_lt hr1) (by linarith)
        linarith
      have hi0 : 0 ≤ i := by
        rw [hi, jsRound]
        exact Int.le_floor.mpr (by push_cast; linarith)
      have hilt : i < (n : Int) := by
        rw [hi, jsRound]
        exact Int.floor_lt.mpr (by push_cast; linarith)
      have hitn : i.toNat < n := by omega
      refine ⟨W.message.get ⟨i.toNat, hitn⟩, ?_, List.get_mem _ _ _⟩
      rw [jsArrayGet, if_neg (by omega)]
      exact List.get?_eq_get hitn

/-- Witness for C9 at a concrete matched window with two messages and two
distinct random draws. -/
theorem C9_resolution_idempotent_witness :
    (0 : ℚ) ≤ 1 / 2 ∧ (1 / 2 : ℚ) < 1 ∧
      (((getExpectedStatusFromSchedule [nestedWindow] 1900000 "mon" (1 / 2)).id =
          (getExpectedStatusFromSchedule [nestedWindow] 1900000 "mon" 0).id ∧
        (getExpectedStatusFromSchedule [nestedWindow] 1900000 "mon" (1 / 2)).icon =
          (getExpectedStatusFromSchedule [nestedWindow] 1900000 "mon" 0).icon) ∧
      (matchingScheduleItems [nestedWindow] 1900000 "mon" ≠ [] →
        (firstMinByDuration (matchingScheduleItems [nestedWindow] 1900000 "mon")).message ≠ [] →
        ∃ msg,
          (getExpectedStatusFromSchedule [nestedWindow] 1900000 "mon" (1 / 2)).message =
              some msg ∧
          msg ∈ (firstMinByDuration (matchingScheduleItems [nestedWindow] 1900000 "mon")).message)) :=
  ⟨by norm_num, by norm_num,
    C9_resolution_idempotent [nestedWindow] 1900000 "mon" (1 / 2) 0 (by norm_num) (by norm_num)⟩

/-! ### Claim C4 -/

theorem ceil_div_mul_ge (a b : Nat) (hb : 0 < b) : a ≤ b * ((a + b - 1) / b) := by
  have h1 := Nat.div_add_mod (a + b - 1) b
  have h2 : (a + b - 1) % b < b := Nat.mod_lt _ hb
  generalize b * ((a + b - 1) / b) = X at h1 ⊢
  omega

/-- C4: for every interval `I` that evenly divides 60 and every instant,
`getMillisecondsUntilNextTask I` returns a non-negative delay `d` such
that the seconds component of `now + d` is congruent to 0 modulo `I`. -/
theorem C4_drift_free_alignment (I nowMs : Nat) (hI : I ∣ 60) :
    0 ≤ getMillisecondsUntilNextTask I nowMs ∧
      secondsComponent ((nowMs : Int) + getMillisecondsUntilNextTask I nowMs).toNat % I = 0 := by
  have hI0 : 0 < I := Nat.pos_of_dvd_of_pos hI (by norm_num)
  have hb : 0 < 1000 * I := by positivity
  set r := nowMs % 60000 with hr
  set k := (r + 1000 * I - 1) / (1000 * I) with hk
  have hrk : r ≤ 1000 * I * k := ceil_div_mul_ge r (1000 * I) hb
  have hrle : r ≤ nowMs := Nat.mod_le _ _
  have hd : getMillisecondsUntilNextTask I nowMs =
      ((1000 * I * k : Nat) : Int) - (r : Int) := by
    simp only [getMillisecondsUntilNextTask]
    rw [← hr, ← hk]
    push_cast [Nat.cast_sub hrle]
    ring
  have htarget : (nowMs : Int) + getMillisecondsUntilNextTask I nowMs =
      ((nowMs - r + 1000 * I * k : Nat) : Int) := by
    rw [hd]
    push_cast [Nat.cast_sub hrle]
    ring
  constructor
  · rw [hd]
    have : ((r : Nat) : Int) ≤ ((1000 * I * k : Nat) : Int) := by exact_mod_cast hrk
    omega
  · rw [htarget, Int.toNat_natCast]
    have hbase : nowMs - r = 60000 * (nowMs / 60000) := by
      have := Nat.div_add_mod nowMs 60000
      omega
    rw [hbase]
    have hdiv : (60000 * (nowMs / 60000) + 1000 * I * k) / 1000 =
        60 * (nowMs / 60000) + I * k := by
      have : 60000 * (nowMs / 60000) + 1000 * I * k =
          1000 * (60 * (nowMs / 60000) + I * k) := by ring
      rw [this, Nat.mul_div_cancel_left _ (by norm_num : (0 : Nat) < 1000)]
    rw [secondsComponent, hdiv]
    have hmod : (60 * (nowMs / 60000) + I * k) % 60 = I * k % 60 := by
      conv_lhs => rw [Nat.mul_comm 60 (nowMs / 60000)]
      rw [Nat.add_comm, Nat.add_mul_mod_self_right]
    rw [hmod]
    have hdvd : I ∣ I * k % 60 := (Nat.dvd_mod_iff hI).mpr ⟨k, rfl⟩
    obtain ⟨c, hc⟩ := hdvd
    rw [hc, Nat.mul_mod_right]

/-- Witness for C4 at interval 20 seconds and a concrete instant. -/
theorem C4_drift_free_alignment_witness :
    (20 : Nat) ∣ 60 ∧
      (0 ≤ getMillisecondsUntilNextTask 20 123456789 ∧
        secondsComponent ((123456789 : Int) +
          getMillisecondsUntilNextTask 20 123456789).toNat % 20 = 0) :=
  ⟨by norm_num, C4_drift_free_alignment 20 123456789 (by norm_num)⟩

/-! ### Claim C10 -/

/-- C10: the undocumented third alias: the literal string "4D" resolves to
the four locale short weekday names at indices 1 through 4 of the
(seven-element) everyday list, and an entry using it therefore passes the
valid-weekday check: its resolved weekday list is non-empty, and an
accepted end-clock entry using it expands to one window per day of the
look-back span instead of being rejected. -/
theorem C10_4D_alias (everyday : List String) (h7 : everyday.length = 7) :
    determineValidWeekdaysForSchedule everyday (.alias "4D") =
        (everyday.drop 1).take 4 ∧
      ((everyday.drop 1).take 4).length = 4 ∧
      determineValidWeekdaysForSchedule everyday (.alias "4D") ≠ [] ∧
      ∀ (e : RawEntry) (span : Nat) (today : Int) (c : Clock),
        e.icon ≠ "" → e.days = .alias "4D" → e.timing = .byEnd c →
        (expandEntry everyday span today e).length = span := by
  rcases everyday with _ | ⟨b1, everyday⟩
  · simp at h7
  rcases everyday with _ | ⟨b2, everyday⟩
  · simp at h7
  rcases everyday with _ | ⟨b3, everyday⟩
  · simp at h7
  rcases everyday with _ | ⟨b4, everyday⟩
  · simp at h7
  rcases everyday with _ | ⟨b5, everyday⟩
  · simp at h7
  rcases everyday with _ | ⟨b6, everyday⟩
  · simp at h7
  rcases everyday with _ | ⟨b7, everyday⟩
  · simp at h7
  have ht : everyday = [] := List.length_eq_zero.mp (by simpa using h7)
  subst ht
  have hvw : determineValidWeekdaysForSchedule [b1, b2, b3, b4, b5, b6, b7] (.alias "4D") =
      [b2, b3, b4, b5] := rfl
  refine ⟨rfl, rfl, ?_, ?_⟩
  · rw [hvw]
    exact List.cons_ne_nil _ _
  · intro e span today c hicon hdays htiming
    simp only [expandEntry, hdays, htiming, hvw, if_neg hicon]
    rw [if_neg (List.cons_ne_nil _ _)]
    simp

/-- Witness for C10 at the demo everyday list (a locale week starting on
Sunday): "4D" resolves to Monday through Thursday and `lateNightEntry`
with days "4D" expands to two windows. -/
theorem C10_4D_alias_witness :
    demoEveryday.length = 7 ∧
      (determineValidWeekdaysForSchedule demoEveryday (.alias "4D") =
          (demoEveryday.drop 1).take 4 ∧
        ((demoEveryday.drop 1).take 4).length = 4 ∧
        determineValidWeekdaysForSchedule demoEveryday (.alias "4D") ≠ [] ∧
        ∀ (e : RawEntry) (span : Nat) (today : Int) (c : Clock),
          e.icon ≠ "" → e.days = .alias "4D" → e.timing = .byEnd c →
          (expandEntry demoEveryday span today e).length = span) :=
  ⟨by decide, C10_4D_alias demoEveryday (by decide)⟩

/-! ### Claim C7 -/

/-- C7 counterexample: `longDurationEntry` declares duration "24:30:00" —
88200 seconds, exceeding `(maximumDaySpan - 1) * 24` hours = 86400
seconds — yet it is *not* rejected: expansion still contributes one window
per day of the span, because the check compares only the hour field. -/
theorem C7_counterexample :
    longDurationEntry.timing =
        .byDuration
          { hh := { val := 24, len := 2 }, mm := { val := 30, len := 2 },
            ss := { val := 0, len := 2 } } ∧
      durationTotalSeconds
          { hh := { val := 24, len := 2 }, mm := { val := 30, len := 2 },
            ss := { val := 0, len := 2 } } > (2 - 1) * 24 * 3600 ∧
      (expandEntry demoEveryday 2 0 longDurationEntry).length = 2 := by
  decide

/-- C7 amended: an accepted entry with a duration clock is rejected at
expansion time *iff* its hour field exceeds `(lookbackDays - 1) * 24`
(minutes and seconds are ignored by the check); in particular an entry
whose total duration is within `(lookbackDays - 1) * 24` hours is never
rejected and expands to one window per day of the span. -/
theorem C7_duration_rejection_hour_field (everyday : List String)
    (span : Nat) (today : Int) (e : RawEntry) (d : DurationClock)
    (htiming : e.timing = .byDuration d) (hicon : e.icon ≠ "")
    (hvw : determineValidWeekdaysForSchedule everyday e.days ≠ [])
    (hspan : 1 ≤ span) :
    (expandEntry everyday span today e = [] ↔
        (d.hh.val : Int) > ((span : Int) - 1) * 24) ∧
      ((durationTotalSeconds d : Int) ≤ ((span : Int) - 1) * 86400 →
        (expandEntry everyday span today e).length = span) := by
  constructor
  · simp only [expandEntry, htiming, if_neg hicon, if_neg hvw]
    split_ifs with hcl
    · simp [hcl]
    · simp only [hcl, iff_false]
      intro hnil
      have hlen := congrArg List.length hnil
      simp at hlen
      omega
  · intro htot
    have hh24 : ¬ ((d.hh.val : Int) > ((span : Int) - 1) * 24) := by
      rw [durationTotalSeconds] at htot
      push_cast at htot
      omega
    simp only [expandEntry, htiming, if_neg hicon, if_neg hvw, if_neg hh24]
    simp

/-- Witness for the amended C7 at `lateNightEntry` (duration "02:00:00",
well within the bound) with span 2. -/
theorem C7_duration_rejection_hour_field_witness :
    lateNightEntry.timing =
        .byDuration
          { hh := { val := 2, len := 2 }, mm := { val := 0, len := 2 },
            ss := { val := 0, len := 2 } } ∧
      lateNightEntry.icon ≠ "" ∧
      determineValidWeekdaysForSchedule demoEveryday lateNightEntry.days ≠ [] ∧
      (1 : Nat) ≤ 2 ∧
      ((expandEntry demoEveryday 2 100 lateNightEntry = [] ↔
          ((2 : Nat) : Int) > ((2 : Int) - 1) * 24) ∧
        ((durationTotalSeconds
            { hh := { val := 2, len := 2 }, mm := { val := 0, len := 2 },
              ss := { val := 0, len := 2 } } : Int) ≤ ((2 : Int) - 1) * 86400 →
          (expandEntry demoEveryday 2 100 lateNightEntry).length = 2)) :=
  ⟨by decide, by decide, by decide, by decide,
    C7_duration_rejection_hour_field demoEveryday 2 100 lateNightEntry
      { hh := { val := 2, len := 2 }, mm := { val := 0, len := 2 },
        ss := { val := 0, len := 2 } }
      (by decide) (by decide) (by decide) (by decide)⟩

/-! ### Claim C5 -/

theorem mem_expandEntry (everyday : List String) (span : Nat) (today : Int)
    (e : RawEntry) (w : ScheduleItem) (hw : w ∈ expandEntry everyday span today e) :
    ∃ off, off < span ∧
      w = mkOccurrence today off e (determineValidWeekdaysForSchedule everyday e.days) := by
  rcases htm : e.timing with d | c <;>
    simp only [expandEntry, htm] at hw <;>
    split_ifs at hw <;>
    first
      | exact absurd hw (List.not_mem_nil w)
      | (obtain ⟨off, hoff, hweq⟩ := List.mem_map.mp hw
         exact ⟨off, List.mem_range.mp (List.mem_reverse.mp hoff), hweq.symm⟩)

theorem jsConcatNum_ge (a : Nat) (f : ClockField) : a ≤ jsConcatNum a f := by
  rw [jsConcatNum]
  have hp : 0 < (10 : Nat) ^ f.len := pow_pos (by norm_num) f.len
  have := Nat.le_mul_of_pos_right a hp
  omega

theorem jsConcatNum_eq_iff (a : Nat) (f : ClockField) (hf : 1 ≤ f.len) :
    jsConcatNum a f = a ↔ a = 0 ∧ f.val = 0 := by
  rw [jsConcatNum]
  have h10 : 10 ≤ (10 : Nat) ^ f.len := by
    calc (10 : Nat) = 10 ^ 1 := (pow_one 10).symm
    _ ≤ 10 ^ f.len := Nat.pow_le_pow_right (by norm_num) hf
  have hmul : a * 10 ≤ a * 10 ^ f.len := Nat.mul_le_mul_left a h10
  constructor
  · intro h
    generalize a * (10 : Nat) ^ f.len = X at h hmul
    omega
  · rintro ⟨rfl, h0⟩
    simp [h0]

/-- C5 counterexample: `badEndEntry` (start 10:00:00, end 09:00:00) is
accepted by expansion, and *every* window it produces has `endInstant`
strictly *before* `startInstant`. -/
theorem C5_counterexample :
    badEndEntry.timing = .byEnd { hh := 9, mm := 0, ss := 0 } ∧
      (expandEntry demoEveryday 2 0 badEndEntry).length = 2 ∧
      (expandEntry demoEveryday 2 0 badEndEntry).all
          (fun w => decide (w.endTime < w.startTime)) = true := by
  decide

/-- C5 amended: a window produced for an end-clock entry satisfies
`endInstant > startInstant` *iff* the end clock is strictly later in the
day than the start clock (nothing rejects an end clock at or before the
start clock); a window produced for a duration entry (whose clock strings
have at least one digit per field) satisfies `endInstant > startInstant`
unless start clock and duration clock are both entirely zero — note the
end components are the *string concatenations* `start + duration` per
field, not their arithmetic sum. -/
theorem C5_window_instant_order (everyday : List String) (span : Nat)
    (today : Int) (e : RawEntry) (w : ScheduleItem)
    (hw : w ∈ expandEntry everyday span today e) :
    (∀ c, e.timing = .byEnd c →
      (w.startTime < w.endTime ↔
        clockSecondOfDay e.startClock < clockSecondOfDay c)) ∧
      (∀ d, e.timing = .byDuration d →
        1 ≤ d.hh.len → 1 ≤ d.mm.len → 1 ≤ d.ss.len →
        (w.startTime < w.endTime ↔
          ¬(e.startClock.hh = 0 ∧ d.hh.val = 0 ∧ e.startClock.mm = 0 ∧
            d.mm.val = 0 ∧ e.startClock.ss = 0 ∧ d.ss.val = 0))) := by
  obtain ⟨off, hoff, rfl⟩ := mem_expandEntry everyday span today e w hw
  constructor
  · intro c htc
    simp only [mkOccurrence, htc, clockSecondOfDay]
    push_cast
    omega
  · intro d htd h1 h2 h3
    simp only [mkOccurrence, htd, clockSecondOfDay]
    have e1 := jsConcatNum_ge e.startClock.hh d.hh
    have e2 := jsConcatNum_ge e.startClock.mm d.mm
    have e3 := jsConcatNum_ge e.startClock.ss d.ss
    have q1 := jsConcatNum_eq_iff e.startClock.hh d.hh h1
    have q2 := jsConcatNum_eq_iff e.startClock.mm d.mm h2
    have q3 := jsConcatNum_eq_iff e.startClock.ss d.ss h3
    generalize jsConcatNum e.startClock.hh d.hh = H at e1 q1 ⊢
    generalize jsConcatNum e.startClock.mm d.mm = M at e2 q2 ⊢
    generalize jsConcatNum e.startClock.ss d.ss = S at e3 q3 ⊢
    push_cast
    omega

/-- Witness for the amended C5 at the anchored-yesterday window of
`badEndEntry`. -/
theorem C5_window_instant_order_witness :
    mkOccurrence 0 1 badEndEntry ["mon"] ∈ expandEntry demoEveryday 2 0 badEndEntry ∧
      ((∀ c, badEndEntry.timing = .byEnd c →
        ((mkOccurrence 0 1 badEndEntry ["mon"]).startTime <
            (mkOccurrence 0 1 badEndEntry ["mon"]).endTime ↔
          clockSecondOfDay badEndEntry.startClock < clockSecondOfDay c)) ∧
      (∀ d, badEndEntry.timing = .byDuration d →
        1 ≤ d.hh.len → 1 ≤ d.mm.len → 1 ≤ d.ss.len →
        ((mkOccurrence 0 1 badEndEntry ["mon"]).startTime <
            (mkOccurrence 0 1 badEndEntry ["mon"]).endTime ↔
          ¬(badEndEntry.startClock.hh = 0 ∧ d.hh.val = 0 ∧
            badEndEntry.startClock.mm = 0 ∧ d.mm.val = 0 ∧
            badEndEntry.startClock.ss = 0 ∧ d.ss.val = 0)))) :=
  ⟨by decide,
    C5_window_instant_order demoEveryday 2 0 badEndEntry
      (mkOccurrence 0 1 badEndEntry ["mon"]) (by decide)⟩

/-! ### Claim C2 -/

/-- C2 counterexample: `lateNightEntry` is valid on Mondays only and runs
from 23:00 into the small hours.  Take local day 100 to be a Tuesday, so
day 99 — the anchor of the `dayOffset = 1` occurrence — is a Monday, and
let `now` be 00:30 on the Tuesday.  The head of the expansion is the
anchored-on-Monday occurrence: it brackets `now` and its `validWeekdays`
is exactly `["mon"]` (the anchor day's weekday), yet resolution at `now`
with the current weekday "tue" returns the empty sentinel — the filter
tests *today's* weekday, not the anchor day's. -/
theorem C2_counterexample :
    ((expandEntry demoEveryday 2 100 lateNightEntry).head?.map fun w =>
        decide (w.startTime ≤ 8641800000) && decide (w.endTime > 8641800000) &&
          (w.validWeekdays == ["mon"])) = some true ∧
      (getExpectedStatusFromSchedule (expandEntry demoEveryday 2 100 lateNightEntry)
          8641800000 "tue" 0).id = "" := by
  decide

/-- C2 amended: resolution-time weekday filtering tests membership of the
*current* day's weekday in the entry's `validWeekdays`, for every
occurrence regardless of its anchor day: an occurrence (any `dayOffset`,
in particular one anchored on a prior day) whose time window brackets
`now` is among the matching windows iff the current weekday name is in
the entry's resolved weekday list. -/
theorem C2_weekday_filter_ignores_anchor (everyday : List String)
    (span : Nat) (today now : Int) (currentWeekday : String) (e : RawEntry)
    (off : Nat) (hoff : off < span) (hicon : e.icon ≠ "")
    (hvw : determineValidWeekdaysForSchedule everyday e.days ≠ [])
    (hnorej : ∀ d, e.timing = .byDuration d →
      ¬((d.hh.val : Int) > ((span : Int) - 1) * 24))
    (hstart : (mkOccurrence today off e
        (determineValidWeekdaysForSchedule everyday e.days)).startTime ≤ now)
    (hend : (mkOccurrence today off e
        (determineValidWeekdaysForSchedule everyday e.days)).endTime > now) :
    mkOccurrence today off e (determineValidWeekdaysForSchedule everyday e.days) ∈
        matchingScheduleItems (expandEntry everyday span today e) now currentWeekday ↔
      (determineValidWeekdaysForSchedule everyday e.days).contains currentWeekday = true := by
  have hmem : mkOccurrence today off e (determineValidWeekdaysForSchedule everyday e.days) ∈
      expandEntry everyday span today e := by
    have hin : off ∈ (List.range span).reverse :=
      List.mem_reverse.mpr (List.mem_range.mpr hoff)
    rcases htm : e.timing with d | c
    · simp only [expandEntry, htm, if_neg hicon, if_neg hvw, if_neg (hnorej d htm)]
      exact List.mem_map.mpr ⟨off, hin, rfl⟩
    · simp only [expandEntry, htm, if_neg hicon, if_neg hvw]
      exact List.mem_map.mpr ⟨off, hin, rfl⟩
  rw [matchingScheduleItems, List.mem_filter]
  simp only [hmem, true_and, Bool.and_eq_true, decide_eq_true_eq]
  constructor
  · rintro ⟨_, hc⟩
    exact hc
  · intro hc
    exact ⟨⟨hstart, hend⟩, hc⟩

/-- Witness for the amended C2: the same anchored-yesterday occurrence of
`lateNightEntry` *is* matched when the current weekday is "mon". -/
theorem C2_weekday_filter_ignores_anchor_witness :
    (1 : Nat) < 2 ∧
      (mkOccurrence 100 1 lateNightEntry
          (determineValidWeekdaysForSchedule demoEveryday lateNightEntry.days) ∈
          matchingScheduleItems (expandEntry demoEveryday 2 100 lateNightEntry)
            8641800000 "mon" ↔
        (determineValidWeekdaysForSchedule demoEveryday lateNightEntry.days).contains
            "mon" = true) :=
  ⟨by decide,
    C2_weekday_filter_ignores_anchor demoEveryday 2 100 8641800000 "mon"
      lateNightEntry 1 (by decide) (by decide) (by decide)
      (by intro d hd; cases hd; decide) (by decide) (by decide)⟩

/-! ### Claim C3 -/

/-- C3 counterexample: on a cycle that detects a schedule-text change and
whose remote fetch then fails, the cycle aborts but `lastSetStatusById`
does *not* keep its previous value `some "previous"` — it was already
reset to `none` by the schedule-change branch before the remote call. -/
theorem C3_counterexample :
    (runtimeCycle [] true [] 0 "mon" 0 (some "previous") (.error ()) (.ok ())).ok =
        false ∧
      (runtimeCycle [] true [] 0 "mon" 0 (some "previous") (.error ()) (.ok ())).calls =
        [.fetch] ∧
      (runtimeCycle [] true [] 0 "mon" 0 (some "previous") (.error ()) (.ok ())).lastSetStatusById ≠
        some "previous" := by
  decide

set_option maxHeartbeats 3200000 in
/-- C3 amended: when a remote call of a reconciliation cycle fails (fetch
or publish), the cycle aborts with `lastSetStatusById` equal to its value
just before the remote calls: unchanged when the schedule text did not
change, and `none` (the schedule-change reset, which precedes any remote
call) when it did.  This holds for both the plain and the assertive
cycle; in particular a failed remote call itself never updates the
cache, so the next cycle retries. -/
theorem C3_failed_remote_call_never_updates_cache
    (schedule : List ScheduleItem) (scheduleDidChange : Bool)
    (knownIcons : List String) (assertiveInterval : Nat) (now : Int)
    (currentWeekday : String) (rand : ℚ) (st0 : Option String) (counter : Nat)
    (fetchResult : Except Unit RemoteStatus) (publishResult : Except Unit Unit) :
    ((runtimeCycle schedule scheduleDidChange knownIcons now currentWeekday rand
          st0 fetchResult publishResult).ok = false →
        (runtimeCycle schedule scheduleDidChange knownIcons now currentWeekday rand
          st0 fetchResult publishResult).lastSetStatusById =
          (if scheduleDidChange then none else st0)) ∧
      ((assertiveCycle schedule scheduleDidChange knownIcons assertiveInterval now
          currentWeekday rand st0 counter fetchResult publishResult).ok = false →
        (assertiveCycle schedule scheduleDidChange knownIcons assertiveInterval now
          currentWeekday rand st0 counter fetchResult publishResult).lastSetStatusById =
          (if scheduleDidChange then none else st0)) := by
  constructor
  · intro hok
    rcases fetchResult with u | remote <;> rcases publishResult with v | pv <;>
      simp only [runtimeCycle] at hok ⊢ <;>
      generalize getExpectedStatusFromSchedule schedule now currentWeekday rand = R at hok ⊢ <;>
      split_ifs at hok ⊢ <;> rfl
  · intro hok
    rcases fetchResult with u | remote <;> rcases publishResult with v | pv <;>
      simp only [assertiveCycle] at hok ⊢ <;>
      generalize getExpectedStatusFromSchedule schedule now currentWeekday rand = R at hok ⊢ <;>
      split_ifs at hok ⊢ <;> rfl

/-- Witness for the amended C3 at a concrete failing fetch with an
unchanged schedule: the cache keeps its value `some "kept"`. -/
theorem C3_failed_remote_call_never_updates_cache_witness :
    (runtimeCycle [] false [] 0 "mon" 0 (some "kept") (.error ()) (.ok ())).ok = false ∧
      (runtimeCycle [] false [] 0 "mon" 0 (some "kept") (.error ()) (.ok ())).lastSetStatusById =
        (if false then none else some "kept") ∧
      (assertiveCycle [] false [] 3 0 "mon" 0 (some "kept") 0 (.error ()) (.ok ())).ok = false ∧
      (assertiveCycle [] false [] 3 0 "mon" 0 (some "kept") 0 (.error ()) (.ok ())).lastSetStatusById =
        (if false then none else some "kept") :=
  ⟨by decide,
    (C3_failed_remote_call_never_updates_cache [] false [] 3 0 "mon" 0 (some "kept") 0
      (.error ()) (.ok ())).1 (by decide),
    by decide,
    (C3_failed_remote_call_never_updates_cache [] false [] 3 0 "mon" 0 (some "kept") 0
      (.error ()) (.ok ())).2 (by decide)⟩

/-! ### Claim C6 -/

/-- C6 counterexample: a forced re-assertion cycle (assertive interval 1,
counter at the threshold, the resolved status assertive) whose remote
fetch returns a *recognized* icon performs the fetch but never publishes:
it returns as "already compliant".  The publish is therefore not
performed "regardless of what icon the remote status carries". -/
theorem C6_counterexample :
    (getExpectedStatusFromSchedule [assertiveWindow] 5 "mon" 0).assertive = true ∧
      (assertiveCycle [assertiveWindow] false [":focus:"] 1 5 "mon" 0 (some "focus") 1
          (.ok compliantRemote) (.ok ())).assertiveIntervalCounter = 0 ∧
      (assertiveCycle [assertiveWindow] false [":focus:"] 1 5 "mon" 0 (some "focus") 1
          (.ok compliantRemote) (.ok ())).ok = true ∧
      (assertiveCycle [assertiveWindow] false [":focus:"] 1 5 "mon" 0 (some "focus") 1
          (.ok compliantRemote) (.ok ())).calls = [RemoteCall.fetch] ∧
      RemoteCall.publish ∉
        (assertiveCycle [assertiveWindow] false [":focus:"] 1 5 "mon" 0 (some "focus") 1
          (.ok compliantRemote) (.ok ())).calls := by
  decide

/-- C6 amended: on a forced re-assertion cycle that reaches the remote
fetch, the publish happens *iff* the fetched status carries a non-empty
icon that is not among the recognized icons and the redundant-empty guard
does not apply (resolved id empty with empty remote message); with a
recognized (or empty) remote icon the forced cycle skips the publish as
already compliant.  The unrecognized-icon *skip* branch itself never runs
on a forced cycle. -/
theorem C6_forced_reassert_publish_condition
    (schedule : List ScheduleItem) (scheduleDidChange : Bool)
    (knownIcons : List String) (assertiveInterval : Nat) (now : Int)
    (currentWeekday : String) (rand : ℚ) (st0 : Option String)
    (remote : RemoteStatus) (publishResult : Except Unit Unit)
    (hfire : (decide (assertiveInterval ≠ 0) &&
        (getExpectedStatusFromSchedule schedule now currentWeekday rand).assertive) = true)
    (hg2 : ¬((if scheduleDidChange then none else st0) = some "" ∧
        (getExpectedStatusFromSchedule schedule now currentWeekday rand).message = some "")) :
    RemoteCall.publish ∈
        (assertiveCycle schedule scheduleDidChange knownIcons assertiveInterval now
          currentWeekday rand st0 assertiveInterval (.ok remote) publishResult).calls ↔
      (remote.icon ≠ "" ∧ knownIcons.contains remote.icon = false ∧
        ¬((getExpectedStatusFromSchedule schedule now currentWeekday rand).id = "" ∧
          remote.message = "")) := by
  simp only [assertiveCycle]
  generalize hR : getExpectedStatusFromSchedule schedule now currentWeekday rand = R at hfire hg2 ⊢
  have hg2b : (((if scheduleDidChange then none else st0) == some "") &&
      (R.message == some "")) = false := by
    by_cases h1 : (if scheduleDidChange then none else st0) = some ""
    · by_cases h2 : R.message = some ""
      · exact absurd ⟨h1, h2⟩ hg2
      · simp [h2]
    · simp [h1]
  rw [hfire]
  simp only [hg2b]
  cases hic : (remote.icon == "") <;>
    cases hcont : knownIcons.contains remote.icon <;>
    cases hid2 : (R.id == "") <;>
    cases hmsg : (remote.message == "") <;>
    rcases publishResult with v | pv <;>
    simp_all

/-- Witness for the amended C6: same forced cycle as the counterexample
but with an unrecognized remote icon, where the publish does happen. -/
theorem C6_forced_reassert_publish_condition_witness :
    ((decide ((1 : Nat) ≠ 0) &&
        (getExpectedStatusFromSchedule [assertiveWindow] 5 "mon" 0).assertive) = true) ∧
      ¬((if false then none else some "focus") = some "" ∧
        (getExpectedStatusFromSchedule [assertiveWindow] 5 "mon" 0).message = some "") ∧
      (RemoteCall.publish ∈
          (assertiveCycle [assertiveWindow] false [":focus:"] 1 5 "mon" 0 (some "focus") 1
            (.ok { message := "busy", icon := ":custom:", doNotDisturb := false })
            (.ok ())).calls ↔
        (":custom:" ≠ "" ∧ [":focus:"].contains ":custom:" = false ∧
          ¬((getExpectedStatusFromSchedule [assertiveWindow] 5 "mon" 0).id = "" ∧
            "busy" = ""))) :=
  ⟨by decide, by decide,
    C6_forced_reassert_publish_condition [assertiveWindow] false [":focus:"] 1 5 "mon" 0
      (some "focus") { message := "busy", icon := ":custom:", doNotDisturb := false }
      (.ok ()) (by decide) (by decide)⟩

/-! ### Claim C8 -/

/-- C8 counterexample: with a fixed schedule text and a resolved status
whose id equals the one the previous cycle published, a forced assertive
re-assertion still performs a remote fetch — the cycle's remote-call list
is not empty. -/
theorem C8_counterexample :
    (getExpectedStatusFromSchedule [assertiveWindow] 7 "mon" 0).id = "focus" ∧
      (assertiveCycle [assertiveWindow] false [":focus:"] 1 7 "mon" 0 (some "focus") 1
          (.ok compliantRemote) (.ok ())).calls ≠ [] := by
  decide

/-- C8 amended: with an unchanged schedule text and `lastSetStatusById`
equal to the resolved status's id, a reconciliation cycle performs zero
remote calls, provided an empty resolved id only occurs as the empty
sentinel (its message is then the empty string, per the data model) and —
for the assertive variant — the cycle does not force a re-assertion. -/
theorem C8_synchronized_cycle_makes_no_remote_calls
    (schedule : List ScheduleItem) (knownIcons : List String)
    (assertiveInterval : Nat) (now : Int) (currentWeekday : String) (rand : ℚ)
    (counter : Nat) (fetchResult : Except Unit RemoteStatus)
    (publishResult : Except Unit Unit)
    (hsent : (getExpectedStatusFromSchedule schedule now currentWeekday rand).id = "" →
      (getExpectedStatusFromSchedule schedule now currentWeekday rand).message = some "")
    (hnofire : ¬(assertiveInterval ≠ 0 ∧
      (getExpectedStatusFromSchedule schedule now currentWeekday rand).assertive = true ∧
      counter = assertiveInterval)) :
    (runtimeCycle schedule false knownIcons now currentWeekday rand
        (some (getExpectedStatusFromSchedule schedule now currentWeekday rand).id)
        fetchResult publishResult).calls = [] ∧
      (assertiveCycle schedule false knownIcons assertiveInterval now currentWeekday rand
        (some (getExpectedStatusFromSchedule schedule now currentWeekday rand).id)
        counter fetchResult publishResult).calls = [] := by
  generalize hR : getExpectedStatusFromSchedule schedule now currentWeekday rand = R at hsent hnofire ⊢
  have hra : ((decide (assertiveInterval ≠ 0) && R.assertive) &&
      decide (counter = assertiveInterval)) = false := by
    by_cases h1 : assertiveInterval = 0
    · simp [h1]
    · by_cases h2 : counter = assertiveInterval
      · cases hA : R.assertive
        · simp
        · exact absurd ⟨h1, hA, h2⟩ hnofire
      · simp [h2]
  constructor
  · simp only [runtimeCycle, hR]
    by_cases hid : R.id = ""
    · have hmsg := hsent hid
      simp [jsTruthyOpt, hid, hmsg]
    · simp [jsTruthyOpt, hid]
  · simp only [assertiveCycle, hR]
    rw [hra]
    by_cases hid : R.id = ""
    · have hmsg := hsent hid
      simp [jsTruthyOpt, hid, hmsg]
    · simp [jsTruthyOpt, hid]

/-- Witness for the amended C8: a synchronized non-empty status
(`nestedWindow` resolved, id "nested" cached) in a non-firing assertive
configuration: both cycle variants perform zero remote calls. -/
theorem C8_synchronized_cycle_makes_no_remote_calls_witness :
    ((getExpectedStatusFromSchedule [nestedWindow] 1900000 "mon" 0).id = "" →
      (getExpectedStatusFromSchedule [nestedWindow] 1900000 "mon" 0).message = some "") ∧
      ¬((3 : Nat) ≠ 0 ∧
        (getExpectedStatusFromSchedule [nestedWindow] 1900000 "mon" 0).assertive = true ∧
        (0 : Nat) = 3) ∧
      ((runtimeCycle [nestedWindow] false [":n:"] 1900000 "mon" 0
          (some (getExpectedStatusFromSchedule [nestedWindow] 1900000 "mon" 0).id)
          (.ok compliantRemote) (.ok ())).calls = [] ∧
        (assertiveCycle [nestedWindow] false [":n:"] 3 1900000 "mon" 0
          (some (getExpectedStatusFromSchedule [nestedWindow] 1900000 "mon" 0).id)
          0 (.ok compliantRemote) (.ok ())).calls = []) :=
  ⟨by decide, by decide,
    C8_synchronized_cycle_makes_no_remote_calls [nestedWindow] [":n:"] 3 1900000 "mon" 0 0
      (.ok compliantRemote) (.ok ()) (by decide) (by decide)⟩

end SlackStatus
